import Mathlib

/-!
Verification of the chat Lambda handler (`lambda/index.py`).

The handler is embedded shallowly: Python/JSON values become the inductive
type `Json`; Python exceptions become the error type `PyErr` inside
`Except`; the external Bedrock call is an input oracle (`ProviderOutcome`);
the process-global `bedrock_client` becomes explicit state (`ProcState`).
`json.loads` / `json.dumps` are Python stdlib, external to this repository:
the parse outcome of the inbound body is therefore part of the input
(`RawBody`), and response bodies are kept as unserialized `Json` values.
-/

/-- Python/JSON values as manipulated by the handler. -/
inductive Json where
  | null
  | bool (b : Bool)
  | int (n : Int)
  | str (s : String)
  | arr (xs : List Json)
  | obj (kvs : List (String × Json))
deriving Repr

/-- Python exceptions reaching the handler's two `except` clauses:
`botocore.exceptions.ClientError` (carrying `e.response` as a dict and
`str(e)`), and everything else (carrying `str(error)`). -/
inductive PyErr where
  | clientError (errResponse : List (String × Json)) (msg : String)
  | other (msg : String)
deriving Repr

/-- Python truthiness of a JSON value (`bool(x)`). -/
def Json.truthy : Json → Bool
  | .null => false
  | .bool b => b
  | .int n => n != 0
  | .str s => s != ""
  | .arr xs => !xs.isEmpty
  | .obj kvs => !kvs.isEmpty

/-- Python `x == s` where `s` is a string literal: true exactly when `x` is
that very string (JSON values of other types never equal a string). -/
def Json.pyEqStr (x : Json) (s : String) : Bool :=
  match x with
  | .str t => t == s
  | _ => false

/-- Python `d[k]` for a string key: `KeyError` when the key is missing,
`TypeError` when the value is not a dict. -/
def Json.pyIndex (j : Json) (k : String) : Except PyErr Json :=
  match j with
  | .obj kvs =>
    match List.lookup k kvs with
    | some v => .ok v
    | none => .error (.other (String.append "KeyError: " k))
  | _ => .error (.other (String.append "TypeError: value is not subscriptable with key " k))

/-- Python `d.get(k, default)`: total on dicts, `AttributeError` otherwise. -/
def Json.pyGetD (j : Json) (k : String) (d : Json) : Except PyErr Json :=
  match j with
  | .obj kvs => .ok ((List.lookup k kvs).getD d)
  | _ => .error (.other (String.append "AttributeError: object has no attribute get, key " k))

/-- Python `l[n]` for an integer index. Indexing a non-list collapses to an
error (for the one place this is used, `content[0]['text']`, a string or
dict at `content` also ends in an exception in Python, only the message
differs). -/
def Json.pyIndexNat (j : Json) (n : Nat) : Except PyErr Json :=
  match j with
  | .arr xs =>
    match xs.get? n with
    | some v => .ok v
    | none => .error (.other "IndexError: list index out of range")
  | _ => .error (.other "TypeError: value is not subscriptable by an integer")

/-- Whether `needle` occurs contiguously inside `hay` (Python `a in s` for
strings). -/
def containsSub (needle hay : List Char) : Bool :=
  match hay with
  | [] => needle.isEmpty
  | _ :: t => needle.isPrefixOf hay || containsSub needle t

/-- Python `k in j`: key membership for dicts, element membership for lists,
substring for strings, `TypeError` otherwise. -/
def Json.pyContains (j : Json) (k : String) : Except PyErr Bool :=
  match j with
  | .obj kvs => .ok ((List.lookup k kvs).isSome)
  | .arr xs => .ok (xs.any (fun x => x.pyEqStr k))
  | .str s => .ok (containsSub k.data s.data)
  | _ => .error (.other "TypeError: argument is not iterable")

/-! ## Region resolution (`extract_region_from_arn`, lines 10-15)

`re.search('arn:aws:lambda:([^:]+):', arn)`: the leftmost position where the
literal `arn:aws:lambda:` is followed by at least one non-colon character
and then a colon; group 1 is the maximal run of non-colon characters. -/

/-- One attempt of the regex at the current position: the literal prefix,
then a nonempty colon-free run, then a colon. -/
def matchArnAt (cs : List Char) : Option String :=
  if ("arn:aws:lambda:".data).isPrefixOf cs then
    let rest := cs.drop 15
    let t := rest.takeWhile (fun c => c != ':')
    if t.isEmpty || t.length == rest.length then none else some (String.mk t)
  else none

/-- `re.search`: try every position left to right. -/
def searchArn : List Char → Option String
  | [] => none
  | c :: cs =>
    match matchArnAt (c :: cs) with
    | some r => some r
    | none => searchArn cs

/-- Lines 10-15: region from the invoked-function ARN, defaulting to
`us-east-1` when the pattern does not occur. -/
def extract_region_from_arn (arn : String) : String :=
  match searchArn arn.data with
  | some region => region
  | none => "us-east-1"

/-! ## Process and invocation data -/

/-- The boto3 client handle: all the handler ever fixes about it is the
region it was constructed with (line 32). -/
structure BedrockClient where
  region : String
deriving Repr

/-- Process-global mutable state: `bedrock_client` (line 18), `None` until
first use. -/
structure ProcState where
  bedrock_client : Option BedrockClient
deriving Repr

/-- Cold-start configuration (lines 21-24). `MAX_TOKENS`, `TEMPERATURE` and
`TOP_P` are numbers read from the environment; the handler only embeds them
verbatim into the payload, so they are carried as opaque `Json` values. -/
structure Config where
  MODEL_ID : String
  MAX_TOKENS : Json
  TEMPERATURE : Json
  TOP_P : Json
deriving Repr

/-- The value found at `event['body']` and the outcome of `json.loads` on it
(line 45). Parsing is stdlib, so the outcome is part of the input: the key
may be absent (`KeyError`), the value may fail to parse (`json.JSONDecodeError`
or `TypeError`, message `m`), or parse to a JSON value. -/
inductive RawBody where
  | absent
  | unparsable (m : String)
  | parsed (j : Json)
deriving Repr

/-- The inbound event, restricted to the two parts the handler reads: the
value at `requestContext` (when that key is present) and the body. -/
structure Event where
  requestContext : Option Json
  body : RawBody
deriving Repr

/-- Outcome of `bedrock_client.invoke_model` followed by
`json.loads(response['body'].read())` (lines 90-97): a `ClientError` from the
call, a non-ClientError failure while reading/parsing the reply, or a parsed
response body. -/
inductive ProviderOutcome where
  | clientError (errResponse : List (String × Json)) (msg : String)
  | badPayload (m : String)
  | ok (responseBody : Json)
deriving Repr

/-- One invocation: the event, `context.invoked_function_arn`, and the
provider oracle. -/
structure Invocation where
  event : Event
  arn : String
  provider : ProviderOutcome
deriving Repr

/-! ## Pipeline stages -/

/-- Lines 38-42: look up `requestContext.authorizer.claims` and the identity
fields, used only for logging. `user_info['claims']` is an unguarded index;
`.get('email') or .get('cognito:username')` short-circuits. Exception
propagation is rendered as explicit matches. -/
def authorizerStep (requestContext : Option Json) : Except PyErr Unit :=
  match requestContext with
  | none => .ok ()
  | some rc =>
    match rc.pyContains "authorizer" with
    | .error e => .error e
    | .ok hasAuth =>
      if hasAuth then
        match rc.pyIndex "authorizer" with
        | .error e => .error e
        | .ok auth =>
          match auth.pyIndex "claims" with
          | .error e => .error e
          | .ok user_info =>
            match user_info.pyGetD "email" .null with
            | .error e => .error e
            | .ok email =>
              if email.truthy then .ok ()
              else
                match user_info.pyGetD "cognito:username" .null with
                | .error e => .error e
                | .ok _ => .ok ()
      else .ok ()

/-- Lines 45-47: parse the body, require `message`, default
`conversationHistory` to the empty list. -/
def decodeRequest (ev : Event) : Except PyErr (Json × Json) :=
  match ev.body with
  | .absent => .error (.other "KeyError: body")
  | .unparsable m => .error (.other m)
  | .parsed body =>
    match body.pyIndex "message" with
    | .error e => .error e
    | .ok message =>
      match body.pyGetD "conversationHistory" (.arr []) with
      | .error e => .error e
      | .ok conversation_history => .ok (message, conversation_history)

/-- A `{role, content}` turn dict. -/
def mkTurn (role : String) (content : Json) : Json :=
  .obj [("role", .str role), ("content", content)]

/-- Lines 53-59 (value level): `messages = conversation_history.copy()` then
append the user turn. A non-list history has no `copy`/`append` and raises. -/
def assembleTranscript (conversation_history message : Json) : Except PyErr (List Json) :=
  match conversation_history with
  | .arr xs => .ok (xs ++ [mkTurn "user" message])
  | _ => .error (.other "AttributeError: object has no attribute copy")

/-- A Bedrock-schema message: `{role, content: [{text: c}]}`. -/
def bedrockTurn (role : String) (c : Json) : Json :=
  .obj [("role", .str role), ("content", .arr [.obj [("text", c)]])]

/-- Loop body of lines 63-73: a user/assistant turn maps to its Bedrock
form, any other role appends nothing; `msg['content']` is read only after
the role matched. -/
def translateTurn (msg : Json) : Except PyErr (Option Json) :=
  match msg.pyIndex "role" with
  | .error e => .error e
  | .ok role =>
    if role.pyEqStr "user" then
      match msg.pyIndex "content" with
      | .error e => .error e
      | .ok c => .ok (some (bedrockTurn "user" c))
    else if role.pyEqStr "assistant" then
      match msg.pyIndex "content" with
      | .error e => .error e
      | .ok c => .ok (some (bedrockTurn "assistant" c))
    else .ok none

/-- Lines 62-73: the whole translation loop over `messages`; the first
exception aborts the loop. -/
def translateAll : List Json → Except PyErr (List Json)
  | [] => .ok []
  | t :: ts =>
    match translateTurn t with
    | .error e => .error e
    | .ok h =>
      match translateAll ts with
      | .error e => .error e
      | .ok rest => .ok (h.elim rest (fun b => b :: rest))

/-- Lines 76-84: the `invoke_model` request payload. -/
def mkPayload (cfg : Config) (bedrock_messages : List Json) : Json :=
  .obj [("messages", .arr bedrock_messages),
        ("inferenceConfig", .obj
          [("maxTokens", cfg.MAX_TOKENS),
           ("stopSequences", .arr []),
           ("temperature", cfg.TEMPERATURE),
           ("topP", cfg.TOP_P)])]

/-- Lines 90-97: the provider call, re-raising its outcome. -/
def providerStep : ProviderOutcome → Except PyErr Json
  | .clientError r m => .error (.clientError r m)
  | .badPayload m => .error (.other m)
  | .ok body => .ok body

/-- Lines 101-107: validate `output.message.content` by short-circuit
truthiness, then extract `content[0]['text']`. -/
def normalizeBody (response_body : Json) : Except PyErr Json :=
  match response_body.pyGetD "output" .null with
  | .error e => .error e
  | .ok out =>
    if !out.truthy then .error (.other "No response content from the model")
    else
      match out.pyGetD "message" .null with
      | .error e => .error e
      | .ok msg =>
        if !msg.truthy then .error (.other "No response content from the model")
        else
          match msg.pyGetD "content" .null with
          | .error e => .error e
          | .ok content =>
            if !content.truthy then .error (.other "No response content from the model")
            else
              match content.pyIndexNat 0 with
              | .error e => .error e
              | .ok c0 => c0.pyIndex "text"

/-- The fixed response header set (lines 116-121, repeated verbatim at
142-147 and 161-166; named `headers` in the source, renamed here to avoid
clashing with the envelope field of the same name). -/
def fixedHeaders : List (String × String) :=
  [("Content-Type", "application/json"),
   ("Access-Control-Allow-Origin", "*"),
   ("Access-Control-Allow-Headers", "Content-Type,X-Amz-Date,Authorization,X-Api-Key,X-Amz-Security-Token"),
   ("Access-Control-Allow-Methods", "OPTIONS,POST")]

/-- The response envelope; `body` is the dict passed to `json.dumps`. -/
structure Response where
  statusCode : Nat
  headers : List (String × String)
  body : Json
deriving Repr

/-- Lines 124-133: the success envelope. -/
def successResponse (cfg : Config) (assistant_response : Json) (messages : List Json) : Response :=
  { statusCode := 200
    headers := fixedHeaders
    body := .obj
      [("success", .bool true),
       ("response", assistant_response),
       ("conversationHistory", .arr messages),
       ("modelId", .str cfg.MODEL_ID)] }

/-- Line 137: the error code from `e.response`, key `Error` then key `Code`,
defaulting to `Unknown`. botocore builds `e.response` with `Error` as a
dict; a non-dict there would crash the handler itself and is mapped to the
default here. -/
def errorCodeOf (errResponse : List (String × Json)) : Json :=
  match (List.lookup "Error" errResponse).getD (.obj []) with
  | .obj kvs => (List.lookup "Code" kvs).getD (.str "Unknown")
  | _ => .str "Unknown"

/-- Lines 135-171: the two `except` clauses, each a 500 envelope; only the
`ClientError` clause adds `errorCode`. -/
def errorEnvelope : PyErr → Response
  | .clientError errResponse msg =>
    { statusCode := 500
      headers := fixedHeaders
      body := .obj
        [("success", .bool false),
         ("error", .str (String.append "AWS Client Error: " msg)),
         ("errorCode", errorCodeOf errResponse)] }
  | .other msg =>
    { statusCode := 500
      headers := fixedHeaders
      body := .obj
        [("success", .bool false),
         ("error", .str msg)] }

/-- The body of the `try` block (lines 34-133), excluding the client
initialization which touches process state. -/
def handlerBody (cfg : Config) (inv : Invocation) : Except PyErr Response :=
  match authorizerStep inv.event.requestContext with
  | .error e => .error e
  | .ok _ =>
    match decodeRequest inv.event with
    | .error e => .error e
    | .ok (message, conversation_history) =>
      match assembleTranscript conversation_history message with
      | .error e => .error e
      | .ok messages =>
        match translateAll messages with
        | .error e => .error e
        | .ok bedrock_messages =>
          let _request_payload := mkPayload cfg bedrock_messages
          match providerStep inv.provider with
          | .error e => .error e
          | .ok response_body =>
            match normalizeBody response_body with
            | .error e => .error e
            | .ok assistant_response =>
              .ok (successResponse cfg assistant_response
                (messages ++ [mkTurn "assistant" assistant_response]))

/-- Lines 29-33: create the client on first need, binding it to the region
resolved from the invocation ARN; reuse it afterwards. -/
def initClient (st : ProcState) (arn : String) : ProcState :=
  match st.bedrock_client with
  | some _ => st
  | none => { bedrock_client := some { region := extract_region_from_arn arn } }

/-- Lines 26-171: the full handler, as a function of configuration, process
state and one invocation, returning the new process state and the response. -/
def lambda_handler (cfg : Config) (st : ProcState) (inv : Invocation) : ProcState × Response :=
  (initClient st inv.arn,
   match handlerBody cfg inv with
   | .ok r => r
   | .error e => errorEnvelope e)

/-- A sequence of invocations against one warm process. -/
def runAll (cfg : Config) (st : ProcState) : List Invocation → ProcState × List Response
  | [] => (st, [])
  | inv :: invs =>
    let p := lambda_handler cfg st inv
    let q := runAll cfg p.1 invs
    (q.1, p.2 :: q.2)

/-! ## Derived notions used by the statements -/

/-- Field access on a JSON object, for stating properties of response
bodies. -/
def Json.lookup (j : Json) (k : String) : Option Json :=
  match j with
  | .obj kvs => List.lookup k kvs
  | _ => none

/-- Modelled from the spec: only turns with `role == user` or
`role == assistant` are translated into `(role, content: [(text: content)])`
entries; any other role is silently omitted. Stated as a per-turn partial
map, to be compared with the loop of lines 62-73. -/
def specTranslateTurn (t : Json) : Option Json :=
  match t.lookup "role", t.lookup "content" with
  | some r, some c =>
    if r.pyEqStr "user" then some (bedrockTurn "user" c)
    else if r.pyEqStr "assistant" then some (bedrockTurn "assistant" c)
    else none
  | _, _ => none

/-- A transcript turn the loop of lines 62-73 can process without raising:
it is a dict with a `role` entry, and has a `content` entry whenever the
role is `user` or `assistant`. -/
def WfTurn (t : Json) : Prop :=
  (∃ r, t.lookup "role" = some r) ∧
  (∀ r, t.lookup "role" = some r → (r.pyEqStr "user" || r.pyEqStr "assistant") = true →
    ∃ c, t.lookup "content" = some c)

/-- The nested path `output.message.content[0].text` is fully present in a
provider response body, with `t` the text at its end. -/
def FullPath (rb t : Json) : Prop :=
  ∃ kvs okvs mkvs c0kvs rest0,
    rb = .obj kvs ∧
    List.lookup "output" kvs = some (.obj okvs) ∧
    List.lookup "message" okvs = some (.obj mkvs) ∧
    List.lookup "content" mkvs = some (.arr (.obj c0kvs :: rest0)) ∧
    List.lookup "text" c0kvs = some t

/-! ## Python list objects and aliasing (lines 53-59 and 110-113)

The pure pipeline above renders `.copy()`/`.append()` at value level; to
settle the aliasing claim the same lines are also modelled against an
explicit store of list objects, where an object reference is an index into
the store and `append` mutates in place. -/

abbrev ListStore := List (List Json)

/-- `l.copy()`: allocate a fresh list object with the same elements; the
fresh reference is the previous store size. -/
def listCopy (s : ListStore) (i : Nat) : ListStore × Nat :=
  (s ++ [s.getD i []], s.length)

/-- `l.append(v)`: in-place update of the referenced list object. -/
def listAppend (s : ListStore) (i : Nat) (v : Json) : ListStore :=
  s.set i (s.getD i [] ++ [v])

/-- Lines 53-59 and 110-113 as store operations: copy the caller's
`conversation_history`, then append the user turn and the assistant turn to
the copy. Returns the final store and the reference to `messages`. -/
def transcriptOps (s : ListStore) (histRef : Nat) (message text : Json) : ListStore × Nat :=
  let p := listCopy s histRef
  let s2 := listAppend p.1 p.2 (mkTurn "user" message)
  let s3 := listAppend s2 p.2 (mkTurn "assistant" text)
  (s3, p.2)

/-! Concrete fixtures for witnesses and counterexamples. -/

/-- A sample configuration for concrete runs. -/
def cfgW : Config := ⟨"m", .int 512, .null, .null⟩

/-- A well-shaped provider response body with reply text `yo`. -/
def goodProviderBody : Json :=
  .obj [("output", .obj [("message", .obj [("content", .arr [.obj [("text", .str "yo")]])])])]

/-- An event whose body parses to `(message: hi)` with no history and no
request context. -/
def goodEvent : Event := ⟨none, .parsed (.obj [("message", .str "hi")])⟩

/-- A fully successful invocation. -/
def invGood : Invocation := ⟨goodEvent, "a", .ok goodProviderBody⟩

/-! Verification of the claims. -/

theorem takeWhile_nocolon (l r : List Char) (h : ∀ c ∈ l, c ≠ ':') :
    (l ++ ':' :: r).takeWhile (fun c => c != ':') = l := by
  induction l with
  | nil => simp
  | cons a t ih =>
      have ha : a ≠ ':' := h a (by simp)
      simp only [List.cons_append, List.takeWhile_cons]
      rw [if_pos (by simp [ha]), ih (fun c hc => h c (by simp [hc]))]

theorem matchArnAt_of_shape (region suffix : List Char) (hne : region ≠ [])
    (hnc : ∀ c ∈ region, c ≠ ':') :
    matchArnAt ("arn:aws:lambda:".data ++ region ++ ':' :: suffix) = some (String.mk region) := by
  unfold matchArnAt
  rw [if_pos]
  · dsimp only
    rw [List.append_assoc]
    have h15 : ("arn:aws:lambda:".data).length = 15 := by decide
    rw [show (15 : Nat) = ("arn:aws:lambda:".data).length from h15.symm, List.drop_left]
    rw [takeWhile_nocolon region suffix hnc]
    rw [if_neg]
    simp only [List.isEmpty_eq_true, List.length_append, List.length_cons, Bool.or_eq_true,
      beq_iff_eq]
    intro hcon
    rcases hcon with h1 | h2
    · exact hne h1
    · omega
  · rw [List.append_assoc]
    exact (List.isPrefixOf_iff_prefix).2 (List.prefix_append _ _)

theorem searchArn_of_matchAt (cs : List Char) (r : String) (h : matchArnAt cs = some r) :
    searchArn cs = some r := by
  cases cs with
  | nil =>
      have hn : matchArnAt ([] : List Char) = none := by decide
      rw [hn] at h; cases h
  | cons c t => rw [searchArn, h]

theorem extract_region_structured (region suffix : String) (hne : region ≠ "")
    (hnc : ∀ c ∈ region.data, c ≠ ':') :
    extract_region_from_arn (("arn:aws:lambda:" ++ region ++ ":") ++ suffix) = region := by
  unfold extract_region_from_arn
  have hdata : (("arn:aws:lambda:" ++ region ++ ":") ++ suffix).data
      = "arn:aws:lambda:".data ++ region.data ++ ':' :: suffix.data := by
    simp only [String.data_append]
    simp [List.append_assoc]
  rw [hdata]
  have hneL : region.data ≠ [] := fun hd => hne (congrArg String.mk hd)
  rw [searchArn_of_matchAt _ _ (matchArnAt_of_shape region.data suffix.data hneL hnc)]

theorem searchArn_none_of_no_lit (cs : List Char)
    (h : containsSub "arn:aws:lambda:".data cs = false) : searchArn cs = none := by
  induction cs with
  | nil => rfl
  | cons c t ih =>
      rw [containsSub] at h
      simp only [Bool.or_eq_false_iff] at h
      rw [searchArn]
      have hm : matchArnAt (c :: t) = none := by
        unfold matchArnAt
        rw [if_neg]
        simp [h.1]
      rw [hm, ih h.2]

/-- C6: an identifier containing `arn:aws:lambda:` followed by a nonempty
colon-free region and a colon resolves to that region; an identifier in
which the literal never occurs (the empty one included) resolves to the
default `us-east-1`. -/
theorem C6_region_resolution :
    (∀ region suffix : String, region ≠ "" → (∀ c ∈ region.data, c ≠ ':') →
      extract_region_from_arn (("arn:aws:lambda:" ++ region ++ ":") ++ suffix) = region)
    ∧ extract_region_from_arn "arn:aws:lambda:eu-west-1:123456789012:function:chat" = "eu-west-1"
    ∧ (∀ arn : String, containsSub "arn:aws:lambda:".data arn.data = false →
      extract_region_from_arn arn = "us-east-1")
    ∧ extract_region_from_arn "" = "us-east-1" := by
  refine ⟨extract_region_structured, by decide, ?_, by decide⟩
  intro arn h
  unfold extract_region_from_arn
  rw [searchArn_none_of_no_lit arn.data h]

theorem C6_witness :
    extract_region_from_arn (("arn:aws:lambda:" ++ "ap-northeast-1" ++ ":") ++ "123:function:f") = "ap-northeast-1"
    ∧ extract_region_from_arn "not-an-arn" = "us-east-1" :=
  ⟨C6_region_resolution.1 "ap-northeast-1" "123:function:f" (by decide) (by decide),
   C6_region_resolution.2.2.1 "not-an-arn" (by decide)⟩

theorem lambda_handler_state (cfg : Config) (st : ProcState) (inv : Invocation) :
    (lambda_handler cfg st inv).1 = initClient st inv.arn := rfl

theorem runAll_of_warm (cfg : Config) (invs : List Invocation) (st : ProcState)
    (c : BedrockClient) (h : st.bedrock_client = some c) :
    (runAll cfg st invs).1 = st := by
  induction invs generalizing st with
  | nil => rfl
  | cons inv invs ih =>
      rw [runAll]
      dsimp only
      rw [lambda_handler_state]
      have hi : initClient st inv.arn = st := by unfold initClient; rw [h]
      rw [hi, ih st h]

/-- C9: the ProviderClient is a lazy singleton: a warm invocation leaves the
process state untouched, a cold one creates the client bound to the region
resolved from that first invocation ARN, and any nonempty run of
invocations from a cold start ends with exactly the client created by its
first invocation. -/
theorem C9_lazy_singleton :
    (∀ cfg st inv c, st.bedrock_client = some c → (lambda_handler cfg st inv).1 = st)
    ∧ (∀ cfg st inv, st.bedrock_client = none →
        (lambda_handler cfg st inv).1
          = { bedrock_client := some { region := extract_region_from_arn inv.arn } })
    ∧ (∀ cfg inv invs, (runAll cfg { bedrock_client := none } (inv :: invs)).1
        = { bedrock_client := some { region := extract_region_from_arn inv.arn } }) := by
  refine ⟨?_, ?_, ?_⟩
  · intro cfg st inv c h
    rw [lambda_handler_state]
    unfold initClient
    rw [h]
  · intro cfg st inv h
    rw [lambda_handler_state]
    unfold initClient
    rw [h]
  · intro cfg inv invs
    rw [runAll]
    dsimp only
    rw [lambda_handler_state]
    have h1 : initClient { bedrock_client := none } inv.arn
        = { bedrock_client := some { region := extract_region_from_arn inv.arn } } := rfl
    rw [h1, runAll_of_warm cfg invs _ _ rfl]

theorem C9_witness :
    (lambda_handler ⟨"m", .null, .null, .null⟩
        { bedrock_client := some { region := "eu-west-1" } }
        ⟨⟨none, .absent⟩, "arn:aws:lambda:us-west-2:1:function:f", .badPayload "x"⟩).1
      = { bedrock_client := some { region := "eu-west-1" } } :=
  C9_lazy_singleton.1 ⟨"m", .null, .null, .null⟩ _ _ { region := "eu-west-1" } rfl

theorem transcriptOps_eq (s : ListStore) (i : Nat) (m t : Json) :
    transcriptOps s i m t
      = ((s ++ [s.getD i []]).set s.length
          (s.getD i [] ++ [mkTurn "user" m, mkTurn "assistant" t]), s.length) := by
  unfold transcriptOps listCopy listAppend
  dsimp only
  have hlen : s.length < (s ++ [s.getD i []]).length := by
    simp
  have hg1 : (s ++ [s.getD i []]).getD s.length [] = s.getD i [] := by
    rw [List.getD_eq_getElem?_getD, List.getElem?_concat_length]
    rfl
  rw [hg1]
  have hg2 : ((s ++ [s.getD i []]).set s.length (s.getD i [] ++ [mkTurn "user" m])).getD s.length []
      = s.getD i [] ++ [mkTurn "user" m] := by
    rw [List.getD_eq_getElem?_getD, List.getElem?_set_self hlen]
    rfl
  rw [hg2, List.set_set, List.append_assoc]
  rfl

/-- C10: the caller's list object is never mutated. -/
theorem C10_no_input_mutation (s : ListStore) (i : Nat) (m t : Json) (hi : i < s.length) :
    ((transcriptOps s i m t).1[i]? = s[i]?)
    ∧ ((transcriptOps s i m t).2 ≠ i)
    ∧ ((transcriptOps s i m t).1[(transcriptOps s i m t).2]?
        = some (s.getD i [] ++ [mkTurn "user" m, mkTurn "assistant" t]))
    ∧ ((listAppend (listCopy s i).1 (listCopy s i).2 (mkTurn "user" m))[i]? = s[i]?) := by
  rw [transcriptOps_eq s i m t]
  have hne : s.length ≠ i := Nat.ne_of_gt hi
  have hlen : s.length < (s ++ [s.getD i []]).length := by simp
  refine ⟨?_, ?_, ?_, ?_⟩
  · dsimp only
    rw [List.getElem?_set_ne hne, List.getElem?_append_left hi]
  · exact hne
  · dsimp only
    rw [List.getElem?_set_self hlen]
  · unfold listCopy listAppend
    dsimp only
    rw [List.getElem?_set_ne hne, List.getElem?_append_left hi]

theorem C10_witness :
    ((transcriptOps [[Json.str "x"]] 0 (Json.str "hi") (Json.str "ok")).1[0]?
      = ([[Json.str "x"]] : ListStore)[0]?)
    ∧ ((transcriptOps [[Json.str "x"]] 0 (Json.str "hi") (Json.str "ok")).2 ≠ 0)
    ∧ ((transcriptOps [[Json.str "x"]] 0 (Json.str "hi") (Json.str "ok")).1[
        (transcriptOps [[Json.str "x"]] 0 (Json.str "hi") (Json.str "ok")).2]?
        = some ([[Json.str "x"]].getD 0 []
            ++ [mkTurn "user" (Json.str "hi"), mkTurn "assistant" (Json.str "ok")]))
    ∧ ((listAppend (listCopy [[Json.str "x"]] 0).1 (listCopy [[Json.str "x"]] 0).2
          (mkTurn "user" (Json.str "hi")))[0]? = ([[Json.str "x"]] : ListStore)[0]?) :=
  C10_no_input_mutation [[Json.str "x"]] 0 (Json.str "hi") (Json.str "ok") (by decide)

theorem translateTurn_wf (t : Json) (h : WfTurn t) :
    translateTurn t = .ok (specTranslateTurn t) := by
  obtain ⟨⟨r, hr⟩, hc⟩ := h
  cases t with
  | obj kvs =>
      have hr' : List.lookup "role" kvs = some r := hr
      by_cases hu : r.pyEqStr "user" = true
      · obtain ⟨c, hcc⟩ := hc r hr (by simp [hu])
        have hcc' : List.lookup "content" kvs = some c := hcc
        simp [translateTurn, specTranslateTurn, Json.pyIndex, Json.lookup, hr', hcc', hu]
      · by_cases ha : r.pyEqStr "assistant" = true
        · obtain ⟨c, hcc⟩ := hc r hr (by simp [ha])
          have hcc' : List.lookup "content" kvs = some c := hcc
          simp [translateTurn, specTranslateTurn, Json.pyIndex, Json.lookup, hr', hcc', hu, ha]
        · cases hcl : List.lookup "content" kvs with
          | none =>
              simp [translateTurn, specTranslateTurn, Json.pyIndex, Json.lookup, hr', hcl, hu, ha]
          | some c =>
              simp [translateTurn, specTranslateTurn, Json.pyIndex, Json.lookup, hr', hcl, hu, ha]
  | null => simp [Json.lookup] at hr
  | bool b => simp [Json.lookup] at hr
  | int n => simp [Json.lookup] at hr
  | str s => simp [Json.lookup] at hr
  | arr xs => simp [Json.lookup] at hr

theorem translateAll_wf (ts : List Json) (h : ∀ t ∈ ts, WfTurn t) :
    translateAll ts = .ok (ts.filterMap specTranslateTurn) := by
  induction ts with
  | nil => rfl
  | cons t ts ih =>
      rw [translateAll, translateTurn_wf t (h t (by simp)),
        ih (fun x hx => h x (List.mem_cons_of_mem _ hx))]
      cases hs : specTranslateTurn t with
      | none => simp [List.filterMap_cons, hs, Option.elim]
      | some b => simp [List.filterMap_cons, hs, Option.elim]

theorem translateTurn_skip (t r : Json)
    (hr : t.lookup "role" = some r)
    (hu : r.pyEqStr "user" = false) (ha : r.pyEqStr "assistant" = false) :
    translateTurn t = .ok none := by
  cases t with
  | obj kvs =>
      have hr' : List.lookup "role" kvs = some r := hr
      simp [translateTurn, Json.pyIndex, hr', hu, ha]
  | null => simp [Json.lookup] at hr
  | bool b => simp [Json.lookup] at hr
  | int n => simp [Json.lookup] at hr
  | str s => simp [Json.lookup] at hr
  | arr xs => simp [Json.lookup] at hr

theorem translateAll_skip (pre post : List Json) (t r : Json)
    (hr : t.lookup "role" = some r)
    (hu : r.pyEqStr "user" = false) (ha : r.pyEqStr "assistant" = false) :
    translateAll (pre ++ t :: post) = translateAll (pre ++ post) := by
  induction pre with
  | nil =>
      simp only [List.nil_append]
      rw [translateAll, translateTurn_skip t r hr hu ha]
      cases hp : translateAll post with
      | error e => simp [hp]
      | ok rest => simp [hp, Option.elim]
  | cons a pre ih =>
      rw [List.cons_append, List.cons_append, translateAll, translateAll, ih]

/-- C2: for a well-formed transcript the translation loop produces exactly
the spec mapping (user/assistant turns in order, others omitted); the
payload carries the translated array verbatim and its inferenceConfig
always has an empty stopSequences; the empty-history `hi` request
translates to exactly one user entry. -/
theorem C2_provider_request :
    (∀ ts : List Json, (∀ t ∈ ts, WfTurn t) →
      translateAll ts = .ok (ts.filterMap specTranslateTurn))
    ∧ (∀ cfg bs, (mkPayload cfg bs).lookup "messages" = some (.arr bs))
    ∧ (∀ cfg bs, ∃ ic, (mkPayload cfg bs).lookup "inferenceConfig" = some ic
        ∧ ic.lookup "stopSequences" = some (.arr []))
    ∧ (assembleTranscript (.arr []) (.str "hi") = .ok [mkTurn "user" (.str "hi")]
        ∧ translateAll [mkTurn "user" (.str "hi")] = .ok [bedrockTurn "user" (.str "hi")]) := by
  refine ⟨translateAll_wf, ?_, ?_, rfl, rfl⟩
  · intro cfg bs
    rfl
  · intro cfg bs
    exact ⟨_, rfl, rfl⟩

theorem C2_witness :
    translateAll [mkTurn "user" (.str "a"), mkTurn "system" (.str "s")]
      = .ok ([mkTurn "user" (.str "a"), mkTurn "system" (.str "s")].filterMap specTranslateTurn) :=
  C2_provider_request.1 _ (by
    intro t ht
    simp only [List.mem_cons, List.not_mem_nil, or_false] at ht
    rcases ht with rfl | rfl
    · exact ⟨⟨.str "user", rfl⟩, fun _ _ _ => ⟨.str "a", rfl⟩⟩
    · refine ⟨⟨.str "system", rfl⟩, fun r hr hor => ?_⟩
      have hr2 : (some (Json.str "system") : Option Json) = some r := hr
      cases hr2
      simp [Json.pyEqStr] at hor)

/-- C7: a turn whose role is neither user nor assistant translates to no
entry, its presence anywhere in the transcript leaves the translated array
unchanged, and a concrete invocation carrying such a turn still succeeds
with status 200. -/
theorem C7_role_filtering :
    (∀ t r : Json, t.lookup "role" = some r → r.pyEqStr "user" = false →
      r.pyEqStr "assistant" = false → translateTurn t = .ok none)
    ∧ (∀ (pre post : List Json) (t r : Json), t.lookup "role" = some r →
      r.pyEqStr "user" = false → r.pyEqStr "assistant" = false →
      translateAll (pre ++ t :: post) = translateAll (pre ++ post))
    ∧ (lambda_handler cfgW ⟨none⟩
        ⟨⟨none, .parsed (.obj [("message", .str "hi"),
            ("conversationHistory",
              .arr [.obj [("role", .str "system"), ("content", .str "s")]])])⟩,
          "a", .ok goodProviderBody⟩).2.statusCode = 200 := by
  exact ⟨translateTurn_skip, translateAll_skip, rfl⟩

theorem C7_witness :
    translateAll ([] ++ mkTurn "system" (.str "s") :: [mkTurn "user" (.str "hi")])
      = translateAll ([] ++ [mkTurn "user" (.str "hi")]) :=
  C7_role_filtering.2.1 [] [mkTurn "user" (.str "hi")] (mkTurn "system" (.str "s"))
    (.str "system") rfl rfl rfl

theorem lookup_some_ne_nil {α : Type} {k : String} {l : List (String × α)} {v : α}
    (h : List.lookup k l = some v) : l.isEmpty = false := by
  cases l with
  | nil => simp [List.lookup] at h
  | cons a t => rfl

theorem norm_ok_fullpath (rb t : Json) (h : normalizeBody rb = .ok t) : FullPath rb t := by
  cases rb with
  | null => simp [normalizeBody, Json.pyGetD] at h
  | bool b => simp [normalizeBody, Json.pyGetD] at h
  | int n => simp [normalizeBody, Json.pyGetD] at h
  | str s => simp [normalizeBody, Json.pyGetD] at h
  | arr xs => simp [normalizeBody, Json.pyGetD] at h
  | obj kvs =>
      unfold normalizeBody at h
      rw [show (Json.obj kvs).pyGetD "output" Json.null
          = .ok ((List.lookup "output" kvs).getD .null) from rfl] at h
      cases hlo : List.lookup "output" kvs with
      | none => rw [hlo] at h; simp [Json.truthy] at h
      | some o =>
        rw [hlo] at h
        dsimp only [Option.getD] at h
        cases o with
        | null => simp [Json.truthy] at h
        | bool b => cases b <;> simp [Json.truthy, Json.pyGetD] at h
        | int n =>
            by_cases hn : n = 0
            · subst hn; simp [Json.truthy] at h
            · simp [Json.truthy, hn, Json.pyGetD] at h
        | str s =>
            by_cases hs : s = ""
            · subst hs; simp [Json.truthy] at h
            · simp [Json.truthy, hs, Json.pyGetD] at h
        | arr xs =>
            cases xs with
            | nil => simp [Json.truthy] at h
            | cons x xt => simp [Json.truthy, Json.pyGetD] at h
        | obj okvs =>
            cases okvs with
            | nil => simp [Json.truthy] at h
            | cons ok0 okt =>
              rw [show (Json.obj (ok0 :: okt)).truthy = true from rfl] at h
              simp only [Bool.not_true, Bool.false_eq_true, if_false] at h
              rw [show (Json.obj (ok0 :: okt)).pyGetD "message" Json.null
                  = .ok ((List.lookup "message" (ok0 :: okt)).getD .null) from rfl] at h
              cases hlm : List.lookup "message" (ok0 :: okt) with
              | none => rw [hlm] at h; simp [Json.truthy] at h
              | some m =>
                rw [hlm] at h
                dsimp only [Option.getD] at h
                cases m with
                | null => simp [Json.truthy] at h
                | bool b => cases b <;> simp [Json.truthy, Json.pyGetD] at h
                | int n =>
                    by_cases hn : n = 0
                    · subst hn; simp [Json.truthy] at h
                    · simp [Json.truthy, hn, Json.pyGetD] at h
                | str s =>
                    by_cases hs : s = ""
                    · subst hs; simp [Json.truthy] at h
                    · simp [Json.truthy, hs, Json.pyGetD] at h
                | arr xs =>
                    cases xs with
                    | nil => simp [Json.truthy] at h
                    | cons x xt => simp [Json.truthy, Json.pyGetD] at h
                | obj mkvs =>
                    cases mkvs with
                    | nil => simp [Json.truthy] at h
                    | cons mk0 mkt =>
                      rw [show (Json.obj (mk0 :: mkt)).truthy = true from rfl] at h
                      simp only [Bool.not_true, Bool.false_eq_true, if_false] at h
                      rw [show (Json.obj (mk0 :: mkt)).pyGetD "content" Json.null
                          = .ok ((List.lookup "content" (mk0 :: mkt)).getD .null) from rfl] at h
                      cases hlc : List.lookup "content" (mk0 :: mkt) with
                      | none => rw [hlc] at h; simp [Json.truthy] at h
                      | some content =>
                        rw [hlc] at h
                        dsimp only [Option.getD] at h
                        cases content with
                        | null => simp [Json.truthy] at h
                        | bool b => cases b <;> simp [Json.truthy, Json.pyIndexNat] at h
                        | int n =>
                            by_cases hn : n = 0
                            · subst hn; simp [Json.truthy] at h
                            · simp [Json.truthy, hn, Json.pyIndexNat] at h
                        | str s =>
                            by_cases hs : s = ""
                            · subst hs; simp [Json.truthy] at h
                            · simp [Json.truthy, hs, Json.pyIndexNat] at h
                        | obj ckvs =>
                            cases ckvs with
                            | nil => simp [Json.truthy] at h
                            | cons c0 ct => simp [Json.truthy, Json.pyIndexNat] at h
                        | arr xs =>
                            cases xs with
                            | nil => simp [Json.truthy] at h
                            | cons c0 rest =>
                              rw [show (Json.arr (c0 :: rest)).truthy = true from rfl] at h
                              simp only [Bool.not_true, Bool.false_eq_true, if_false] at h
                              rw [show (Json.arr (c0 :: rest)).pyIndexNat 0
                                  = .ok c0 from rfl] at h
                              dsimp only at h
                              cases c0 with
                              | null => simp [Json.pyIndex] at h
                              | bool b => simp [Json.pyIndex] at h
                              | int n => simp [Json.pyIndex] at h
                              | str s => simp [Json.pyIndex] at h
                              | arr ys => simp [Json.pyIndex] at h
                              | obj c0kvs =>
                                rw [show (Json.obj c0kvs).pyIndex "text"
                                    = (match List.lookup "text" c0kvs with
                                       | some v => Except.ok v
                                       | none => Except.error (.other (String.append "KeyError: " "text"))) from rfl] at h
                                cases hlt : List.lookup "text" c0kvs with
                                | none => rw [hlt] at h; simp at h
                                | some tv =>
                                  rw [hlt] at h
                                  simp only [Except.ok.injEq] at h
                                  subst h
                                  exact ⟨kvs, ok0 :: okt, mk0 :: mkt, c0kvs, rest,
                                    rfl, hlo, hlm, hlc, hlt⟩

theorem fullpath_norm_ok (rb t : Json) (h : FullPath rb t) : normalizeBody rb = .ok t := by
  obtain ⟨kvs, okvs, mkvs, c0kvs, rest0, rfl, hlo, hlm, hlc, hlt⟩ := h
  have hok : okvs.isEmpty = false := lookup_some_ne_nil hlm
  have hmk : mkvs.isEmpty = false := lookup_some_ne_nil hlc
  unfold normalizeBody
  rw [show (Json.obj kvs).pyGetD "output" Json.null
      = .ok ((List.lookup "output" kvs).getD .null) from rfl, hlo]
  dsimp only [Option.getD]
  rw [show (Json.obj okvs).truthy = !okvs.isEmpty from rfl, hok]
  simp only [Bool.not_false, Bool.not_true, Bool.false_eq_true, if_false]
  rw [show (Json.obj okvs).pyGetD "message" Json.null
      = .ok ((List.lookup "message" okvs).getD .null) from rfl, hlm]
  dsimp only [Option.getD]
  rw [show (Json.obj mkvs).truthy = !mkvs.isEmpty from rfl, hmk]
  simp only [Bool.not_false, Bool.not_true, Bool.false_eq_true, if_false]
  rw [show (Json.obj mkvs).pyGetD "content" Json.null
      = .ok ((List.lookup "content" mkvs).getD .null) from rfl, hlc]
  dsimp only [Option.getD]
  rw [show (Json.arr (Json.obj c0kvs :: rest0)).truthy = true from rfl]
  simp only [Bool.not_true, Bool.false_eq_true, if_false]
  rw [show (Json.arr (Json.obj c0kvs :: rest0)).pyIndexNat 0 = .ok (.obj c0kvs) from rfl]
  dsimp only
  rw [show (Json.obj c0kvs).pyIndex "text"
      = (match List.lookup "text" c0kvs with
         | some v => Except.ok v
         | none => Except.error (.other (String.append "KeyError: " "text"))) from rfl, hlt]

theorem norm_missing_content (kvs okvs mkvs : List (String × Json))
    (hlo : List.lookup "output" kvs = some (.obj okvs))
    (hlm : List.lookup "message" okvs = some (.obj mkvs))
    (hlc : List.lookup "content" mkvs = none) :
    normalizeBody (.obj kvs) = .error (.other "No response content from the model") := by
  have hok : okvs.isEmpty = false := lookup_some_ne_nil hlm
  unfold normalizeBody
  rw [show (Json.obj kvs).pyGetD "output" Json.null
      = .ok ((List.lookup "output" kvs).getD .null) from rfl, hlo]
  dsimp only [Option.getD]
  rw [show (Json.obj okvs).truthy = !okvs.isEmpty from rfl, hok]
  simp only [Bool.not_false, Bool.not_true, Bool.false_eq_true, if_false]
  rw [show (Json.obj okvs).pyGetD "message" Json.null
      = .ok ((List.lookup "message" okvs).getD .null) from rfl, hlm]
  dsimp only [Option.getD]
  cases mkvs with
  | nil => rfl
  | cons m0 mt =>
      rw [show (Json.obj (m0 :: mt)).truthy = true from rfl]
      simp only [Bool.not_true, Bool.false_eq_true, if_false]
      rw [show (Json.obj (m0 :: mt)).pyGetD "content" Json.null
          = .ok ((List.lookup "content" (m0 :: mt)).getD .null) from rfl, hlc]
      rfl

/-- C5: the normalizer fails whenever the path output.message.content[0].text
is not fully present, succeeds with exactly the text of the first content
element when it is, and the missing-content case raises the absent-model-
content message whose envelope is a 500 with that error string. -/
theorem C5_response_normalizer :
    (∀ rb : Json, (∀ t, ¬ FullPath rb t) → ∃ e, normalizeBody rb = .error e)
    ∧ (∀ rb t : Json, FullPath rb t → normalizeBody rb = .ok t)
    ∧ (∀ kvs okvs mkvs : List (String × Json),
        List.lookup "output" kvs = some (.obj okvs) →
        List.lookup "message" okvs = some (.obj mkvs) →
        List.lookup "content" mkvs = none →
        normalizeBody (.obj kvs) = .error (.other "No response content from the model"))
    ∧ ((errorEnvelope (.other "No response content from the model")).statusCode = 500
       ∧ (errorEnvelope (.other "No response content from the model")).body.lookup "error"
           = some (.str "No response content from the model")
       ∧ (errorEnvelope (.other "No response content from the model")).body.lookup "success"
           = some (.bool false)) := by
  refine ⟨?_, fullpath_norm_ok, norm_missing_content, rfl, rfl, rfl⟩
  intro rb hnp
  cases hn : normalizeBody rb with
  | error e => exact ⟨e, rfl⟩
  | ok t => exact absurd (norm_ok_fullpath rb t hn) (hnp t)

theorem C5_witness :
    normalizeBody (.obj [("output", .obj [("message", .obj [("content",
        .arr [.obj [("text", .str "hello")]])])])]) = .ok (.str "hello")
    ∧ normalizeBody (.obj [("output", .obj [("message", .obj [("other", .null)])])])
        = .error (.other "No response content from the model") :=
  ⟨C5_response_normalizer.2.1 _ (.str "hello")
      ⟨[("output", .obj [("message", .obj [("content", .arr [.obj [("text", .str "hello")]])])])],
       [("message", .obj [("content", .arr [.obj [("text", .str "hello")]])])],
       [("content", .arr [.obj [("text", .str "hello")]])],
       [("text", .str "hello")], [], rfl, rfl, rfl, rfl, rfl⟩,
   C5_response_normalizer.2.2.1 _ [("message", .obj [("other", .null)])] [("other", .null)]
     rfl rfl rfl⟩

theorem pyIndex_error (j : Json) (k : String) (e : PyErr) (h : j.pyIndex k = .error e) :
    ∃ m, e = .other m := by
  cases j with
  | obj kvs =>
      unfold Json.pyIndex at h
      dsimp only at h
      cases hl : List.lookup k kvs with
      | some v => rw [hl] at h; exact Except.noConfusion h
      | none => rw [hl] at h; exact ⟨_, (Except.error.inj h).symm⟩
  | null => exact ⟨_, (Except.error.inj h).symm⟩
  | bool b => exact ⟨_, (Except.error.inj h).symm⟩
  | int n => exact ⟨_, (Except.error.inj h).symm⟩
  | str s => exact ⟨_, (Except.error.inj h).symm⟩
  | arr xs => exact ⟨_, (Except.error.inj h).symm⟩

theorem pyGetD_error (j : Json) (k : String) (d : Json) (e : PyErr)
    (h : j.pyGetD k d = .error e) : ∃ m, e = .other m := by
  cases j with
  | obj kvs => exact Except.noConfusion h
  | null => exact ⟨_, (Except.error.inj h).symm⟩
  | bool b => exact ⟨_, (Except.error.inj h).symm⟩
  | int n => exact ⟨_, (Except.error.inj h).symm⟩
  | str s => exact ⟨_, (Except.error.inj h).symm⟩
  | arr xs => exact ⟨_, (Except.error.inj h).symm⟩

theorem pyIndexNat_error (j : Json) (n : Nat) (e : PyErr) (h : j.pyIndexNat n = .error e) :
    ∃ m, e = .other m := by
  cases j with
  | arr xs =>
      unfold Json.pyIndexNat at h
      dsimp only at h
      cases hl : xs.get? n with
      | some v => rw [hl] at h; exact Except.noConfusion h
      | none => rw [hl] at h; exact ⟨_, (Except.error.inj h).symm⟩
  | null => exact ⟨_, (Except.error.inj h).symm⟩
  | bool b => exact ⟨_, (Except.error.inj h).symm⟩
  | int n2 => exact ⟨_, (Except.error.inj h).symm⟩
  | str s => exact ⟨_, (Except.error.inj h).symm⟩
  | obj kvs => exact ⟨_, (Except.error.inj h).symm⟩

theorem pyContains_error (j : Json) (k : String) (e : PyErr) (h : j.pyContains k = .error e) :
    ∃ m, e = .other m := by
  cases j with
  | obj kvs => exact Except.noConfusion h
  | arr xs => exact Except.noConfusion h
  | str s => exact Except.noConfusion h
  | null => exact ⟨_, (Except.error.inj h).symm⟩
  | bool b => exact ⟨_, (Except.error.inj h).symm⟩
  | int n => exact ⟨_, (Except.error.inj h).symm⟩

theorem authorizerStep_error (rc : Option Json) (e : PyErr)
    (h : authorizerStep rc = .error e) : ∃ m, e = .other m := by
  cases rc with
  | none => exact Except.noConfusion h
  | some j =>
      unfold authorizerStep at h
      dsimp only at h
      cases hc : j.pyContains "authorizer" with
      | error e2 => rw [hc] at h; dsimp only at h; cases h; exact pyContains_error j _ _ hc
      | ok hasAuth =>
        rw [hc] at h
        dsimp only at h
        cases hasAuth with
        | false => exact Except.noConfusion h
        | true =>
          simp only [if_true] at h
          cases hi : j.pyIndex "authorizer" with
          | error e2 => rw [hi] at h; dsimp only at h; cases h; exact pyIndex_error j _ _ hi
          | ok auth =>
            rw [hi] at h
            dsimp only at h
            cases hcl : auth.pyIndex "claims" with
            | error e2 => rw [hcl] at h; dsimp only at h; cases h; exact pyIndex_error auth _ _ hcl
            | ok user_info =>
              rw [hcl] at h
              dsimp only at h
              cases hg : user_info.pyGetD "email" .null with
              | error e2 =>
                  rw [hg] at h; dsimp only at h; cases h; exact pyGetD_error user_info _ _ _ hg
              | ok email =>
                rw [hg] at h
                dsimp only at h
                cases ht : email.truthy with
                | true => rw [ht] at h; exact Except.noConfusion h
                | false =>
                  rw [ht] at h
                  simp only [Bool.false_eq_true, if_false] at h
                  cases hg2 : user_info.pyGetD "cognito:username" .null with
                  | error e2 =>
                      rw [hg2] at h; dsimp only at h; cases h
                      exact pyGetD_error user_info _ _ _ hg2
                  | ok v => rw [hg2] at h; exact Except.noConfusion h

theorem decodeRequest_error (ev : Event) (e : PyErr) (h : decodeRequest ev = .error e) :
    ∃ m, e = .other m := by
  unfold decodeRequest at h
  cases hb : ev.body with
  | absent => rw [hb] at h; dsimp only at h; exact ⟨_, (Except.error.inj h).symm⟩
  | unparsable m => rw [hb] at h; dsimp only at h; exact ⟨_, (Except.error.inj h).symm⟩
  | parsed body =>
      rw [hb] at h
      dsimp only at h
      cases hi : body.pyIndex "message" with
      | error e2 => rw [hi] at h; dsimp only at h; cases h; exact pyIndex_error body _ _ hi
      | ok message =>
        rw [hi] at h
        dsimp only at h
        cases hg : body.pyGetD "conversationHistory" (.arr []) with
        | error e2 => rw [hg] at h; dsimp only at h; cases h; exact pyGetD_error body _ _ _ hg
        | ok ch => rw [hg] at h; exact Except.noConfusion h

theorem assembleTranscript_error (ch m : Json) (e : PyErr)
    (h : assembleTranscript ch m = .error e) : ∃ s, e = .other s := by
  cases ch with
  | arr xs => exact Except.noConfusion h
  | null => exact ⟨_, (Except.error.inj h).symm⟩
  | bool b => exact ⟨_, (Except.error.inj h).symm⟩
  | int n => exact ⟨_, (Except.error.inj h).symm⟩
  | str s => exact ⟨_, (Except.error.inj h).symm⟩
  | obj kvs => exact ⟨_, (Except.error.inj h).symm⟩

theorem translateTurn_error (t : Json) (e : PyErr) (h : translateTurn t = .error e) :
    ∃ m, e = .other m := by
  unfold translateTurn at h
  cases hr : t.pyIndex "role" with
  | error e2 => rw [hr] at h; dsimp only at h; cases h; exact pyIndex_error t _ _ hr
  | ok role =>
    rw [hr] at h
    dsimp only at h
    cases hu : role.pyEqStr "user" with
    | true =>
        rw [hu] at h
        simp only [if_true] at h
        cases hc : t.pyIndex "content" with
        | error e2 => rw [hc] at h; dsimp only at h; cases h; exact pyIndex_error t _ _ hc
        | ok c => rw [hc] at h; exact Except.noConfusion h
    | false =>
        rw [hu] at h
        simp only [Bool.false_eq_true, if_false] at h
        cases ha : role.pyEqStr "assistant" with
        | true =>
            rw [ha] at h
            simp only [if_true] at h
            cases hc : t.pyIndex "content" with
            | error e2 => rw [hc] at h; dsimp only at h; cases h; exact pyIndex_error t _ _ hc
            | ok c => rw [hc] at h; exact Except.noConfusion h
        | false =>
            rw [ha] at h
            simp only [Bool.false_eq_true, if_false] at h
            exact Except.noConfusion h

theorem translateAll_error (ts : List Json) (e : PyErr) (h : translateAll ts = .error e) :
    ∃ m, e = .other m := by
  induction ts with
  | nil => exact Except.noConfusion h
  | cons t ts ih =>
      rw [translateAll] at h
      cases ht : translateTurn t with
      | error e2 => rw [ht] at h; dsimp only at h; cases h; exact translateTurn_error t _ ht
      | ok o =>
        rw [ht] at h
        dsimp only at h
        cases hts : translateAll ts with
        | error e2 => rw [hts] at h; dsimp only at h; cases h; exact ih hts
        | ok rest => rw [hts] at h; exact Except.noConfusion h

theorem normalizeBody_error (rb : Json) (e : PyErr) (h : normalizeBody rb = .error e) :
    ∃ m, e = .other m := by
  unfold normalizeBody at h
  cases hg : rb.pyGetD "output" .null with
  | error e2 => rw [hg] at h; dsimp only at h; cases h; exact pyGetD_error rb _ _ _ hg
  | ok out =>
    rw [hg] at h
    dsimp only at h
    cases hto : out.truthy with
    | false =>
        rw [hto] at h
        simp only [Bool.not_false, if_true] at h
        exact ⟨_, (Except.error.inj h).symm⟩
    | true =>
      rw [hto] at h
      simp only [Bool.not_true, Bool.false_eq_true, if_false] at h
      cases hg2 : out.pyGetD "message" .null with
      | error e2 => rw [hg2] at h; dsimp only at h; cases h; exact pyGetD_error out _ _ _ hg2
      | ok msg =>
        rw [hg2] at h
        dsimp only at h
        cases htm : msg.truthy with
        | false =>
            rw [htm] at h
            simp only [Bool.not_false, if_true] at h
            exact ⟨_, (Except.error.inj h).symm⟩
        | true =>
          rw [htm] at h
          simp only [Bool.not_true, Bool.false_eq_true, if_false] at h
          cases hg3 : msg.pyGetD "content" .null with
          | error e2 => rw [hg3] at h; dsimp only at h; cases h; exact pyGetD_error msg _ _ _ hg3
          | ok content =>
            rw [hg3] at h
            dsimp only at h
            cases htc : content.truthy with
            | false =>
                rw [htc] at h
                simp only [Bool.not_false, if_true] at h
                exact ⟨_, (Except.error.inj h).symm⟩
            | true =>
              rw [htc] at h
              simp only [Bool.not_true, Bool.false_eq_true, if_false] at h
              cases hn : content.pyIndexNat 0 with
              | error e2 =>
                  rw [hn] at h; dsimp only at h; cases h; exact pyIndexNat_error content _ _ hn
              | ok c0 =>
                rw [hn] at h
                dsimp only at h
                exact pyIndex_error c0 _ _ h

theorem handlerBody_clientError (cfg : Config) (inv : Invocation)
    (r : List (String × Json)) (m : String)
    (h : handlerBody cfg inv = .error (.clientError r m)) :
    inv.provider = .clientError r m := by
  unfold handlerBody at h
  cases hA : authorizerStep inv.event.requestContext with
  | error e =>
      rw [hA] at h; dsimp only at h
      obtain ⟨m2, rfl⟩ := authorizerStep_error _ _ hA
      exact absurd (Except.error.inj h) (by simp)
  | ok u =>
    rw [hA] at h; dsimp only at h
    cases hD : decodeRequest inv.event with
    | error e =>
        rw [hD] at h; dsimp only at h
        obtain ⟨m2, rfl⟩ := decodeRequest_error _ _ hD
        exact absurd (Except.error.inj h) (by simp)
    | ok p =>
      obtain ⟨message, ch⟩ := p
      rw [hD] at h; dsimp only at h
      cases hAs : assembleTranscript ch message with
      | error e =>
          rw [hAs] at h; dsimp only at h
          obtain ⟨m2, rfl⟩ := assembleTranscript_error _ _ _ hAs
          exact absurd (Except.error.inj h) (by simp)
      | ok messages =>
        rw [hAs] at h; dsimp only at h
        cases hT : translateAll messages with
        | error e =>
            rw [hT] at h; dsimp only at h
            obtain ⟨m2, rfl⟩ := translateAll_error _ _ hT
            exact absurd (Except.error.inj h) (by simp)
        | ok bs =>
          rw [hT] at h; dsimp only at h
          cases hP : inv.provider with
          | clientError r2 m2 =>
              rw [hP] at h
              dsimp only [providerStep] at h
              obtain ⟨h1, h2⟩ := PyErr.clientError.inj (Except.error.inj h)
              subst h1; subst h2; rfl
          | badPayload m2 =>
              rw [hP] at h
              dsimp only [providerStep] at h
              exact absurd (Except.error.inj h) (by simp)
          | ok rb =>
            rw [hP] at h
            dsimp only [providerStep] at h
            cases hN : normalizeBody rb with
            | error e =>
                rw [hN] at h; dsimp only at h
                obtain ⟨m2, rfl⟩ := normalizeBody_error _ _ hN
                exact absurd (Except.error.inj h) (by simp)
            | ok text => rw [hN] at h; exact Except.noConfusion h

theorem handlerBody_ok (cfg : Config) (inv : Invocation) (resp : Response)
    (h : handlerBody cfg inv = .ok resp) :
    ∃ message hist text rb,
      decodeRequest inv.event = .ok (message, .arr hist)
      ∧ inv.provider = .ok rb
      ∧ normalizeBody rb = .ok text
      ∧ resp = successResponse cfg text
          (hist ++ [mkTurn "user" message, mkTurn "assistant" text]) := by
  unfold handlerBody at h
  cases hA : authorizerStep inv.event.requestContext with
  | error e => rw [hA] at h; dsimp only at h; exact Except.noConfusion h
  | ok u =>
    rw [hA] at h; dsimp only at h
    cases hD : decodeRequest inv.event with
    | error e => rw [hD] at h; dsimp only at h; exact Except.noConfusion h
    | ok p =>
      obtain ⟨message, ch⟩ := p
      rw [hD] at h; dsimp only at h
      cases hAs : assembleTranscript ch message with
      | error e => rw [hAs] at h; dsimp only at h; exact Except.noConfusion h
      | ok messages =>
        rw [hAs] at h; dsimp only at h
        have hch : ∃ hist, ch = .arr hist ∧ messages = hist ++ [mkTurn "user" message] := by
          cases ch with
          | arr xs => exact ⟨xs, rfl, (Except.ok.inj hAs).symm⟩
          | null => exact Except.noConfusion hAs
          | bool b => exact Except.noConfusion hAs
          | int n => exact Except.noConfusion hAs
          | str s => exact Except.noConfusion hAs
          | obj kvs => exact Except.noConfusion hAs
        obtain ⟨hist, rfl, rfl⟩ := hch
        cases hT : translateAll (hist ++ [mkTurn "user" message]) with
        | error e => rw [hT] at h; dsimp only at h; exact Except.noConfusion h
        | ok bs =>
          rw [hT] at h; dsimp only at h
          cases hP : inv.provider with
          | clientError r2 m2 => rw [hP] at h; exact Except.noConfusion h
          | badPayload m2 => rw [hP] at h; exact Except.noConfusion h
          | ok rb =>
            rw [hP] at h
            dsimp only [providerStep] at h
            cases hN : normalizeBody rb with
            | error e => rw [hN] at h; dsimp only at h; exact Except.noConfusion h
            | ok text =>
              rw [hN] at h; dsimp only at h
              refine ⟨message, hist, text, rb, rfl, rfl, hN, ?_⟩
              rw [← Except.ok.inj h]
              simp [List.append_assoc]

theorem errorEnvelope_status (e : PyErr) :
    (errorEnvelope e).statusCode = 500
    ∧ (errorEnvelope e).headers = fixedHeaders
    ∧ (errorEnvelope e).body.lookup "success" = some (.bool false) := by
  cases e with
  | clientError r m => exact ⟨rfl, rfl, rfl⟩
  | other m => exact ⟨rfl, rfl, rfl⟩

theorem errorEnvelope_error (e : PyErr) :
    ∃ m, (errorEnvelope e).body.lookup "error" = some (.str m) := by
  cases e with
  | clientError r m => exact ⟨_, rfl⟩
  | other m => exact ⟨_, rfl⟩

theorem errorEnvelope_code (e : PyErr) :
    (∃ c, (errorEnvelope e).body.lookup "errorCode" = some c)
      ↔ ∃ r m, e = PyErr.clientError r m := by
  cases e with
  | clientError r m =>
      exact ⟨fun _ => ⟨r, m, rfl⟩, fun _ => ⟨errorCodeOf r, rfl⟩⟩
  | other m =>
      constructor
      · intro ⟨c, hc⟩
        exact Option.noConfusion hc
      · intro ⟨r, m2, hrm⟩
        exact PyErr.noConfusion hrm

/-- C1: success responses carry the input history plus exactly the two new
turns. -/
theorem C1_roundtrip (cfg : Config) (st : ProcState) (inv : Invocation)
    (h200 : (lambda_handler cfg st inv).2.statusCode = 200) :
    ∃ message hist text rb,
      decodeRequest inv.event = .ok (message, .arr hist)
      ∧ inv.provider = .ok rb
      ∧ normalizeBody rb = .ok text
      ∧ (lambda_handler cfg st inv).2.body.lookup "conversationHistory"
          = some (.arr (hist ++ [mkTurn "user" message, mkTurn "assistant" text]))
      ∧ (lambda_handler cfg st inv).2.body.lookup "response" = some text := by
  unfold lambda_handler at h200 ⊢
  cases hB : handlerBody cfg inv with
  | error e =>
      rw [hB] at h200
      dsimp only at h200
      rw [(errorEnvelope_status e).1] at h200
      exact absurd h200 (by decide)
  | ok resp =>
      obtain ⟨message, hist, text, rb, hD, hP, hN, rfl⟩ := handlerBody_ok cfg inv resp hB
      exact ⟨message, hist, text, rb, hD, hP, hN, rfl, rfl⟩

theorem C1_witness :
    ∃ message hist text rb,
      decodeRequest invGood.event = .ok (message, .arr hist)
      ∧ invGood.provider = .ok rb
      ∧ normalizeBody rb = .ok text
      ∧ (lambda_handler cfgW ⟨none⟩ invGood).2.body.lookup "conversationHistory"
          = some (.arr (hist ++ [mkTurn "user" message, mkTurn "assistant" text]))
      ∧ (lambda_handler cfgW ⟨none⟩ invGood).2.body.lookup "response" = some text :=
  C1_roundtrip cfgW ⟨none⟩ invGood rfl

/-- C3: every failure yields the uniform 500 envelope; `errorCode` appears
exactly for provider client errors. -/
theorem C3_failure_envelope (cfg : Config) (st : ProcState) (inv : Invocation) :
    ((lambda_handler cfg st inv).2.headers = fixedHeaders)
    ∧ ((lambda_handler cfg st inv).2.statusCode = 200
       ∨ ((lambda_handler cfg st inv).2.statusCode = 500
          ∧ (lambda_handler cfg st inv).2.body.lookup "success" = some (.bool false)
          ∧ (∃ m, (lambda_handler cfg st inv).2.body.lookup "error" = some (.str m))
          ∧ ((∃ c, (lambda_handler cfg st inv).2.body.lookup "errorCode" = some c)
              ↔ ∃ r m, handlerBody cfg inv = .error (.clientError r m))))
    ∧ (∀ r m, handlerBody cfg inv = .error (.clientError r m) →
        inv.provider = .clientError r m) := by
  refine ⟨?_, ?_, fun r m h => handlerBody_clientError cfg inv r m h⟩
  · unfold lambda_handler
    cases hB : handlerBody cfg inv with
    | error e => exact (errorEnvelope_status e).2.1
    | ok resp =>
        obtain ⟨message, hist, text, rb, hD, hP, hN, rfl⟩ := handlerBody_ok cfg inv resp hB
        rfl
  · unfold lambda_handler
    cases hB : handlerBody cfg inv with
    | ok resp =>
        obtain ⟨message, hist, text, rb, hD, hP, hN, rfl⟩ := handlerBody_ok cfg inv resp hB
        exact Or.inl rfl
    | error e =>
        refine Or.inr ⟨(errorEnvelope_status e).1, (errorEnvelope_status e).2.2,
          errorEnvelope_error e, ?_⟩
        rw [show ((initClient st inv.arn,
            match Except.error e with
            | Except.ok r => r
            | Except.error e => errorEnvelope e) : ProcState × Response).2
          = errorEnvelope e from rfl]
        rw [errorEnvelope_code e]
        constructor
        · intro ⟨r, m, he⟩
          exact ⟨r, m, by rw [he]⟩
        · intro ⟨r, m, hrm⟩
          exact ⟨r, m, Except.error.inj hrm⟩

theorem handlerBody_decode_error (cfg : Config) (inv : Invocation) (e : PyErr)
    (hA : authorizerStep inv.event.requestContext = .ok ())
    (hD : decodeRequest inv.event = .error e) :
    handlerBody cfg inv = .error e := by
  unfold handlerBody
  rw [hA, hD]

/-- C4 amended: the decoder requires only the presence of `message`. -/
theorem C4_decoder_amended :
    (∀ ev : Event, (∃ p, decodeRequest ev = .ok p) ↔
      ∃ kvs, ev.body = .parsed (.obj kvs) ∧ (List.lookup "message" kvs).isSome = true)
    ∧ (∀ (ev : Event) (kvs : List (String × Json)) (m : Json),
        ev.body = .parsed (.obj kvs) → List.lookup "message" kvs = some m →
        List.lookup "conversationHistory" kvs = none →
        decodeRequest ev = .ok (m, .arr []))
    ∧ (∀ (cfg : Config) (st : ProcState) (inv : Invocation),
        authorizerStep inv.event.requestContext = .ok () →
        (∀ p, decodeRequest inv.event ≠ .ok p) →
        (lambda_handler cfg st inv).2.statusCode = 500
        ∧ (lambda_handler cfg st inv).2.body.lookup "success" = some (.bool false)) := by
  refine ⟨?_, ?_, ?_⟩
  · intro ev
    constructor
    · intro ⟨_p, hp⟩
      unfold decodeRequest at hp
      cases hb : ev.body with
      | absent => rw [hb] at hp; exact Except.noConfusion hp
      | unparsable m => rw [hb] at hp; exact Except.noConfusion hp
      | parsed j =>
          rw [hb] at hp
          dsimp only at hp
          cases j with
          | obj kvs =>
              refine ⟨kvs, rfl, ?_⟩
              cases hl : List.lookup "message" kvs with
              | none =>
                  rw [show (Json.obj kvs).pyIndex "message"
                      = (match List.lookup "message" kvs with
                         | some v => Except.ok v
                         | none => Except.error (.other (String.append "KeyError: " "message")))
                      from rfl, hl] at hp
                  exact Except.noConfusion hp
              | some m => rfl
          | null => exact Except.noConfusion hp
          | bool b => exact Except.noConfusion hp
          | int n => exact Except.noConfusion hp
          | str s => exact Except.noConfusion hp
          | arr xs => exact Except.noConfusion hp
    · intro ⟨kvs, hb, hm⟩
      obtain ⟨m, hl⟩ := Option.isSome_iff_exists.1 hm
      unfold decodeRequest
      rw [hb]
      dsimp only
      rw [show (Json.obj kvs).pyIndex "message"
          = (match List.lookup "message" kvs with
             | some v => Except.ok v
             | none => Except.error (.other (String.append "KeyError: " "message")))
          from rfl, hl]
      exact ⟨_, rfl⟩
  · intro ev kvs m hb hm hch
    unfold decodeRequest
    rw [hb]
    dsimp only
    rw [show (Json.obj kvs).pyIndex "message"
        = (match List.lookup "message" kvs with
           | some v => Except.ok v
           | none => Except.error (.other (String.append "KeyError: " "message")))
        from rfl, hm]
    dsimp only
    rw [show (Json.obj kvs).pyGetD "conversationHistory" (.arr [])
        = .ok ((List.lookup "conversationHistory" kvs).getD (.arr [])) from rfl, hch]
    rfl
  · intro cfg st inv hA hfail
    have hD : ∃ e, decodeRequest inv.event = .error e := by
      cases hd : decodeRequest inv.event with
      | error e => exact ⟨e, rfl⟩
      | ok q => exact absurd hd (hfail q)
    obtain ⟨e, hD⟩ := hD
    have hB := handlerBody_decode_error cfg inv e hA hD
    unfold lambda_handler
    rw [hB]
    exact ⟨(errorEnvelope_status e).1, (errorEnvelope_status e).2.2⟩

theorem C4_counterexample :
    decodeRequest (⟨none, .parsed (.obj [("message", .str "")])⟩ : Event)
        = .ok (.str "", .arr [])
    ∧ (lambda_handler cfgW ⟨none⟩
        ⟨⟨none, .parsed (.obj [("message", .str "")])⟩, "a", .ok goodProviderBody⟩).2.statusCode
        = 200
    ∧ (lambda_handler cfgW ⟨none⟩
        ⟨⟨none, .parsed (.obj [("message", .str "")])⟩, "a", .ok goodProviderBody⟩).2.body.lookup
        "success" = some (.bool true) :=
  ⟨rfl, rfl, rfl⟩

theorem C4_witness :
    (lambda_handler cfgW ⟨none⟩ ⟨⟨none, .absent⟩, "a", .ok goodProviderBody⟩).2.statusCode = 500
    ∧ (lambda_handler cfgW ⟨none⟩
        ⟨⟨none, .absent⟩, "a", .ok goodProviderBody⟩).2.body.lookup "success"
        = some (.bool false) :=
  C4_decoder_amended.2.2 cfgW ⟨none⟩ ⟨⟨none, .absent⟩, "a", .ok goodProviderBody⟩ rfl
    (fun _q hp => Except.noConfusion hp)

theorem handlerBody_auth_indep (cfg : Config) (body : RawBody) (arn : String)
    (prov : ProviderOutcome) (rc1 rc2 : Option Json)
    (h1 : authorizerStep rc1 = .ok ()) (h2 : authorizerStep rc2 = .ok ()) :
    handlerBody cfg ⟨⟨rc1, body⟩, arn, prov⟩ = handlerBody cfg ⟨⟨rc2, body⟩, arn, prov⟩ := by
  unfold handlerBody
  have h1a : authorizerStep (Invocation.mk ⟨rc1, body⟩ arn prov).event.requestContext
      = Except.ok () := h1
  have h2a : authorizerStep (Invocation.mk ⟨rc2, body⟩ arn prov).event.requestContext
      = Except.ok () := h2
  rw [h1a, h2a]
  rfl

/-- C8 amended: the authorizer block is logging-only whenever its `claims`
lookup cannot raise; an authorizer block without a claims mapping is an
error. -/
theorem C8_authorizer_amended :
    (∀ (cfg : Config) (st : ProcState) (arn : String) (prov : ProviderOutcome)
        (body : RawBody) (rc1 rc2 : Option Json),
        authorizerStep rc1 = .ok () → authorizerStep rc2 = .ok () →
        lambda_handler cfg st ⟨⟨rc1, body⟩, arn, prov⟩
          = lambda_handler cfg st ⟨⟨rc2, body⟩, arn, prov⟩)
    ∧ (authorizerStep none = .ok ())
    ∧ (∀ kvs : List (String × Json), List.lookup "authorizer" kvs = none →
        authorizerStep (some (.obj kvs)) = .ok ())
    ∧ (∀ kvs akvs ckvs : List (String × Json),
        List.lookup "authorizer" kvs = some (.obj akvs) →
        List.lookup "claims" akvs = some (.obj ckvs) →
        authorizerStep (some (.obj kvs)) = .ok ())
    ∧ (∀ kvs akvs : List (String × Json),
        List.lookup "authorizer" kvs = some (.obj akvs) →
        List.lookup "claims" akvs = none →
        ∃ m, authorizerStep (some (.obj kvs)) = .error (.other m)) := by
  refine ⟨?_, rfl, ?_, ?_, ?_⟩
  · intro cfg st arn prov body rc1 rc2 h1 h2
    unfold lambda_handler
    rw [handlerBody_auth_indep cfg body arn prov rc1 rc2 h1 h2]
  · intro kvs hl
    unfold authorizerStep
    dsimp only
    rw [show (Json.obj kvs).pyContains "authorizer"
        = .ok ((List.lookup "authorizer" kvs).isSome) from rfl, hl]
    rfl
  · intro kvs akvs ckvs hl hc
    unfold authorizerStep
    dsimp only
    rw [show (Json.obj kvs).pyContains "authorizer"
        = .ok ((List.lookup "authorizer" kvs).isSome) from rfl, hl]
    dsimp only [Option.isSome]
    rw [if_pos rfl]
    rw [show (Json.obj kvs).pyIndex "authorizer"
        = (match List.lookup "authorizer" kvs with
           | some v => Except.ok v
           | none => Except.error (.other (String.append "KeyError: " "authorizer")))
        from rfl, hl]
    dsimp only
    rw [show (Json.obj akvs).pyIndex "claims"
        = (match List.lookup "claims" akvs with
           | some v => Except.ok v
           | none => Except.error (.other (String.append "KeyError: " "claims")))
        from rfl, hc]
    dsimp only
    rw [show (Json.obj ckvs).pyGetD "email" .null
        = .ok ((List.lookup "email" ckvs).getD .null) from rfl]
    dsimp only
    cases ((List.lookup "email" ckvs).getD Json.null).truthy with
    | true => rfl
    | false =>
        rfl
  · intro kvs akvs hl hc
    unfold authorizerStep
    dsimp only
    rw [show (Json.obj kvs).pyContains "authorizer"
        = .ok ((List.lookup "authorizer" kvs).isSome) from rfl, hl]
    dsimp only [Option.isSome]
    rw [if_pos rfl]
    rw [show (Json.obj kvs).pyIndex "authorizer"
        = (match List.lookup "authorizer" kvs with
           | some v => Except.ok v
           | none => Except.error (.other (String.append "KeyError: " "authorizer")))
        from rfl, hl]
    dsimp only
    rw [show (Json.obj akvs).pyIndex "claims"
        = (match List.lookup "claims" akvs with
           | some v => Except.ok v
           | none => Except.error (.other (String.append "KeyError: " "claims")))
        from rfl, hc]
    exact ⟨_, rfl⟩

theorem C8_counterexample :
    (lambda_handler cfgW ⟨none⟩ invGood).2.statusCode = 200
    ∧ (lambda_handler cfgW ⟨none⟩
        ⟨⟨some (.obj [("authorizer", .obj [])]), goodEvent.body⟩, "a",
          .ok goodProviderBody⟩).2.statusCode = 500
    ∧ (lambda_handler cfgW ⟨none⟩ invGood).2
        ≠ (lambda_handler cfgW ⟨none⟩
            ⟨⟨some (.obj [("authorizer", .obj [])]), goodEvent.body⟩, "a",
              .ok goodProviderBody⟩).2 := by
  refine ⟨rfl, rfl, fun h => ?_⟩
  exact absurd (congrArg Response.statusCode h) (by decide)

theorem C8_witness :
    lambda_handler cfgW ⟨none⟩ ⟨⟨none, goodEvent.body⟩, "a", .ok goodProviderBody⟩
      = lambda_handler cfgW ⟨none⟩
          ⟨⟨some (.obj [("authorizer",
              .obj [("claims", .obj [("email", .str "e")])])]), goodEvent.body⟩, "a",
            .ok goodProviderBody⟩ :=
  C8_authorizer_amended.1 cfgW ⟨none⟩ "a" (.ok goodProviderBody) goodEvent.body none
    (some (.obj [("authorizer", .obj [("claims", .obj [("email", .str "e")])])])) rfl rfl

theorem C3_witness :
    (lambda_handler cfgW ⟨none⟩
        ⟨goodEvent, "a", .clientError [("Error", .obj [("Code", .str "Throttling")])] "boom"⟩).2.statusCode
        = 500
    ∧ (lambda_handler cfgW ⟨none⟩
        ⟨goodEvent, "a",
          .clientError [("Error", .obj [("Code", .str "Throttling")])] "boom"⟩).2.body.lookup
        "errorCode" = some (.str "Throttling")
    ∧ (Invocation.mk goodEvent "a"
        (.clientError [("Error", .obj [("Code", .str "Throttling")])] "boom")).provider
        = .clientError [("Error", .obj [("Code", .str "Throttling")])] "boom" := by
  have h := C3_failure_envelope cfgW ⟨none⟩
    ⟨goodEvent, "a", .clientError [("Error", .obj [("Code", .str "Throttling")])] "boom"⟩
  refine ⟨?_, rfl, h.2.2 [("Error", .obj [("Code", .str "Throttling")])] "boom" rfl⟩
  rcases h.2.1 with h200 | h500
  · exact absurd h200 (by decide)
  · exact h500.1
